import Mathlib

/-!
Verification of `tools/benchmark_rectangles/main.py`: a deterministic
32-bit LCG (`SimpleRNG`), a rectangle physics simulation (`Simulation`)
with wall-bounce reflection, and its bounding-box / ground-truth-id
accessors.  Python floats are modelled as exact rationals (`ℚ`); the
32-bit RNG state is a natural number kept below `2^32` by explicit
reduction modulo `2^32`.
-/

set_option maxRecDepth 4000

namespace NorfairBench

/-- The LCG state type from class `SimpleRNG`: a single 32-bit unsigned
integer, modelled as a natural number kept below `2^32`. -/
structure SimpleRNG where
  state : Nat
  deriving DecidableEq

/-- The constructor `SimpleRNG.__init__`: `self.state = seed & 0xFFFFFFFF`.
On Python's arbitrary-precision integers, masking with the all-ones word
`0xFFFFFFFF` is exactly reduction modulo `2^32` (also for negative seeds,
by Python's two's-complement semantics of `&`), so the stored state is the
mathematical residue `seed mod 2^32`. -/
def SimpleRNG.mkSeeded (seed : Int) : SimpleRNG :=
  ⟨(seed % 4294967296).toNat⟩

/-- Method `SimpleRNG.next`: `state = (a*state + c) mod 2^32` with
`a = 1664525`, `c = 1013904223`, `m = 1 <<< 32`; returns the new state.
Modelled state-passing style: the pair is (returned value, updated RNG). -/
def SimpleRNG.next (r : SimpleRNG) : Nat × SimpleRNG :=
  let s := (1664525 * r.state + 1013904223) % 4294967296
  (s, ⟨s⟩)

/-- Method `SimpleRNG.random`: `next() / (1 <<< 32)`, a float in [0, 1),
modelled as an exact rational. -/
def SimpleRNG.random (r : SimpleRNG) : ℚ × SimpleRNG :=
  let p := r.next
  ((p.1 : ℚ) / 4294967296, p.2)

/-- The RNG after `k` calls to `next()`. -/
def SimpleRNG.iter (r : SimpleRNG) : Nat → SimpleRNG
  | 0 => r
  | k + 1 => (SimpleRNG.iter r k).next.2

/-- The list of the first `n` values returned by successive `next()` calls. -/
def SimpleRNG.outputs (r : SimpleRNG) : Nat → List Nat
  | 0 => []
  | n + 1 => r.next.1 :: SimpleRNG.outputs r.next.2 n

/-- The value of the `k`-th call to `random()` (0-based) on an RNG. -/
def SimpleRNG.drawAt (r : SimpleRNG) (k : Nat) : ℚ :=
  ((SimpleRNG.iter r k).next.1 : ℚ) / 4294967296

/-- Class `Rectangle`: a moving axis-aligned box with ground-truth id,
center position, dimensions and velocity. -/
structure Rectangle where
  id : Nat
  x : ℚ
  y : ℚ
  width : ℚ
  height : ℚ
  vx : ℚ
  vy : ℚ
  deriving DecidableEq

/-- Class `Simulation`: fixed bounds and the list of rectangles. -/
structure Simulation where
  width : ℚ
  height : ℚ
  rectangles : List Rectangle
  deriving DecidableEq

/-- One loop iteration of `Simulation.__init__`: builds the rectangle with
0-based index `i` (id `i + 1`) by drawing, in order, x, y, width, height,
vx, vy from the RNG; returns the rectangle and the advanced RNG. -/
def mkRect (i : Nat) (width height : ℚ) (rng : SimpleRNG) : Rectangle × SimpleRNG :=
  let p1 := rng.random
  let p2 := p1.2.random
  let p3 := p2.2.random
  let p4 := p3.2.random
  let p5 := p4.2.random
  let p6 := p5.2.random
  (⟨i + 1, p1.1 * width, p2.1 * height,
    20 + p3.1 * 60, 20 + p4.1 * 60,
    -5 + p5.1 * 10, -5 + p6.1 * 10⟩, p6.2)

/-- The initialization loop `for i in range(num_rectangles)` of
`Simulation.__init__`, started at index `i` with `cnt` rectangles left. -/
def mkRectsFrom (width height : ℚ) (i : Nat) : Nat → SimpleRNG → List Rectangle
  | 0, _ => []
  | cnt + 1, rng =>
    let p := mkRect i width height rng
    p.1 :: mkRectsFrom width height (i + 1) cnt p.2

/-- `Simulation.__init__(width, height, num_rectangles, seed)`. -/
def Simulation.mkSim (width height : Int) (num_rectangles : Nat) (seed : Int) : Simulation :=
  ⟨(width : ℚ), (height : ℚ),
   mkRectsFrom (width : ℚ) (height : ℚ) 0 num_rectangles (SimpleRNG.mkSeeded seed)⟩

/-- The per-rectangle body of `Simulation.update`: add velocity to
position, then clamp-and-reflect at the left/right walls using the
half-width, then at the top/bottom walls using the half-height. -/
def stepRect (W H : ℚ) (r : Rectangle) : Rectangle :=
  let x1 := r.x + r.vx
  let y1 := r.y + r.vy
  let halfW := r.width / 2
  let px :=
    if x1 - halfW < 0 then (halfW, -r.vx)
    else if x1 + halfW > W then (W - halfW, -r.vx)
    else (x1, r.vx)
  let halfH := r.height / 2
  let py :=
    if y1 - halfH < 0 then (halfH, -r.vy)
    else if y1 + halfH > H then (H - halfH, -r.vy)
    else (y1, r.vy)
  { r with x := px.1, y := py.1, vx := px.2, vy := py.2 }

/-- `Simulation.update`: advance every rectangle by one frame, in order. -/
def Simulation.update (s : Simulation) : Simulation :=
  { s with rectangles := s.rectangles.map (stepRect s.width s.height) }

/-- `k` successive calls to `Simulation.update`. -/
def Simulation.updateN (s : Simulation) : Nat → Simulation
  | 0 => s
  | k + 1 => (Simulation.updateN s k).update

/-- `Simulation.get_bounding_boxes`: for each rectangle, in list order,
the pair ((x_min, y_min), (x_max, y_max)) computed from center and
half-extents. -/
def Simulation.get_bounding_boxes (s : Simulation) : List ((ℚ × ℚ) × (ℚ × ℚ)) :=
  s.rectangles.map (fun rect =>
    ((rect.x - rect.width / 2, rect.y - rect.height / 2),
     (rect.x + rect.width / 2, rect.y + rect.height / 2)))

/-- `Simulation.get_ground_truth_ids`: the ids in list order. -/
def Simulation.get_ground_truth_ids (s : Simulation) : List Nat :=
  s.rectangles.map (fun rect => rect.id)

/-- The containment predicate of the spec: both half-extents of the
rectangle stay inside `[0, W] × [0, H]`. -/
def contained (W H : ℚ) (r : Rectangle) : Prop :=
  0 ≤ r.x - r.width / 2 ∧ r.x + r.width / 2 ≤ W ∧
  0 ≤ r.y - r.height / 2 ∧ r.y + r.height / 2 ≤ H

instance (W H : ℚ) (r : Rectangle) : Decidable (contained W H r) := by
  unfold contained; infer_instance

/-- The rectangle the spec prescribes for 0-based index `i`, drawn from an
RNG positioned at the start of that rectangle's six draws, in the field
order x, y, width, height, vx, vy. -/
def rectSpec (width height : ℚ) (i : Nat) (rng : SimpleRNG) : Rectangle :=
  ⟨i + 1, rng.drawAt 0 * width, rng.drawAt 1 * height,
   20 + rng.drawAt 2 * 60, 20 + rng.drawAt 3 * 60,
   -5 + rng.drawAt 4 * 10, -5 + rng.drawAt 5 * 10⟩

theorem SimpleRNG.iter_add (r : SimpleRNG) (a b : Nat) :
    r.iter (a + b) = (r.iter a).iter b := by
  induction b with
  | zero => rfl
  | succ b ih => rw [← Nat.add_assoc]; simp [SimpleRNG.iter, ih]

theorem SimpleRNG.drawAt_iter (r : SimpleRNG) (a k : Nat) :
    (r.iter a).drawAt k = r.drawAt (a + k) := by
  rw [SimpleRNG.drawAt, SimpleRNG.drawAt, SimpleRNG.iter_add]

theorem mkRect_eq (i : Nat) (W H : ℚ) (rng : SimpleRNG) :
    mkRect i W H rng = (rectSpec W H i rng, rng.iter 6) := rfl

theorem mkRectsFrom_eq (W H : ℚ) :
    ∀ (cnt i : Nat) (rng : SimpleRNG),
      mkRectsFrom W H i cnt rng
        = (List.range cnt).map (fun j => rectSpec W H (i + j) (rng.iter (6 * j))) := by
  intro cnt
  induction cnt with
  | zero => intro i rng; rfl
  | succ cnt ih =>
    intro i rng
    rw [mkRectsFrom, mkRect_eq, ih (i + 1) (rng.iter 6),
      List.range_succ_eq_map, List.map_cons, List.map_map]
    refine congrArg₂ _ ?_ ?_
    · simp [SimpleRNG.iter]
    · refine List.map_congr_left fun j _ => ?_
      have h6 : 6 * (j + 1) = 6 + 6 * j := by ring
      simp [Function.comp, ← SimpleRNG.iter_add, h6, Nat.add_assoc, Nat.add_comm 1 j]

theorem stepRect_id (W H : ℚ) (r : Rectangle) : (stepRect W H r).id = r.id := rfl

theorem stepRect_width (W H : ℚ) (r : Rectangle) : (stepRect W H r).width = r.width := rfl

theorem stepRect_height (W H : ℚ) (r : Rectangle) : (stepRect W H r).height = r.height := rfl

theorem stepRect_vx_cases (W H : ℚ) (r : Rectangle) :
    (stepRect W H r).vx = r.vx ∨ (stepRect W H r).vx = -r.vx := by
  simp only [stepRect]
  split_ifs <;> simp

theorem stepRect_vy_cases (W H : ℚ) (r : Rectangle) :
    (stepRect W H r).vy = r.vy ∨ (stepRect W H r).vy = -r.vy := by
  simp only [stepRect]
  split_ifs <;> simp

theorem stepRect_contained (W H : ℚ) (r : Rectangle) (h : contained W H r) :
    contained W H (stepRect W H r) := by
  obtain ⟨h1, h2, h3, h4⟩ := h
  have hw : r.width / 2 + r.width / 2 ≤ W := by linarith
  have hh : r.height / 2 + r.height / 2 ≤ H := by linarith
  unfold contained stepRect
  dsimp only
  split_ifs <;>
    exact ⟨by linarith, by linarith, by linarith, by linarith⟩

/-- Claim C1, as stated, is false: for the simulation constructed with
bounds (1, 1), one rectangle and seed 42, the rectangle (whose width drawn
from the RNG is at least 20, larger than the bounds) violates the
containment predicate after one `update()` call. -/
theorem claim_C1_counterexample :
    ¬ ∀ r ∈ ((Simulation.mkSim 1 1 1 42).updateN 1).rectangles,
        contained (Simulation.mkSim 1 1 1 42).width (Simulation.mkSim 1 1 1 42).height r := by
  intro h
  have hm := h (stepRect 1 1 (mkRect 0 1 1 (SimpleRNG.mkSeeded 42)).1) (by
    simp [Simulation.mkSim, Simulation.updateN, Simulation.update, mkRectsFrom])
  revert hm
  simp only [Simulation.mkSim, contained]
  simp [stepRect, mkRect, SimpleRNG.random, SimpleRNG.next, SimpleRNG.mkSeeded]
  norm_num

/-- Claim C1, amended: the containment predicate (each rectangle's
half-extents inside `[0, W] × [0, H]`) is an invariant of the update step:
if every rectangle of a simulation satisfies it before `update()`, every
rectangle satisfies it after.  (It is not established by construction, so
it need not hold after an arbitrary number of `update()` calls on an
arbitrary constructed `Simulation`.) -/
theorem claim_C1_containment_invariant (s : Simulation)
    (h : ∀ r ∈ s.rectangles, contained s.width s.height r) :
    ∀ r ∈ s.update.rectangles, contained s.width s.height r := by
  intro r hr
  rw [Simulation.update, List.mem_map] at hr
  obtain ⟨r0, hr0, rfl⟩ := hr
  exact stepRect_contained _ _ _ (h r0 hr0)

/-- Witness for C1: a concrete one-rectangle simulation satisfying
containment, for which the invariant theorem yields containment after
`update()`. -/
theorem claim_C1_witness :
    (∀ r ∈ (Simulation.mk 100 100 [Rectangle.mk 1 50 50 20 20 3 (-4)]).rectangles,
        contained 100 100 r) ∧
    (∀ r ∈ (Simulation.mk 100 100 [Rectangle.mk 1 50 50 20 20 3 (-4)]).update.rectangles,
        contained 100 100 r) := by
  have hpre : ∀ r ∈ (Simulation.mk 100 100 [Rectangle.mk 1 50 50 20 20 3 (-4)]).rectangles,
      contained 100 100 r := by
    intro r hr
    rw [List.mem_singleton] at hr
    subst hr
    norm_num [contained]
  exact ⟨hpre, claim_C1_containment_invariant _ hpre⟩

/-- Claim C4: a rectangle whose left edge is exactly at 0 (`x = width/2`)
and which moves left (`vx < 0`) has, after one update step, its horizontal
velocity negated and its left edge exactly at 0 again. -/
theorem claim_C4_left_wall_reflection (W H : ℚ) (r : Rectangle)
    (hx : r.x = r.width / 2) (hv : r.vx < 0) :
    (stepRect W H r).vx = -r.vx ∧ (stepRect W H r).x = r.width / 2 := by
  have hc : r.x + r.vx - r.width / 2 < 0 := by rw [hx]; linarith
  simp only [stepRect]
  rw [if_pos hc]
  exact ⟨rfl, rfl⟩

/-- Witness for C4: a concrete rectangle with left edge at 0 and `vx = -3`
in a 100 × 100 simulation. -/
theorem claim_C4_witness :
    (stepRect 100 100 (Rectangle.mk 1 10 50 20 20 (-3) 0)).vx = -(-3) ∧
    (stepRect 100 100 (Rectangle.mk 1 10 50 20 20 (-3) 0)).x = 20 / 2 :=
  claim_C4_left_wall_reflection 100 100 (Rectangle.mk 1 10 50 20 20 (-3) 0)
    (by norm_num) (by norm_num)

/-- Claim C10: one update step preserves the absolute value of each
velocity component of every rectangle (wall bounces only flip signs), so
per-axis speeds are constant across the run. -/
theorem claim_C10_speed_preserved (s : Simulation) :
    s.update.rectangles.map (fun r => |r.vx|) = s.rectangles.map (fun r => |r.vx|) ∧
    s.update.rectangles.map (fun r => |r.vy|) = s.rectangles.map (fun r => |r.vy|) := by
  constructor <;>
  · rw [Simulation.update, List.map_map]
    refine List.map_congr_left fun r _ => ?_
    simp only [Function.comp]
    first
    | rcases stepRect_vx_cases s.width s.height r with h | h <;> simp [h]
    | rcases stepRect_vy_cases s.width s.height r with h | h <;> simp [h]

/-- Claim C2: for every state value `s`, `next()` returns
`(1664525*s + 1013904223) mod 2^32` and stores that value as the new
state, and `random()` returns that value divided by `2^32`, which lies
in `[0, 1)`. -/
theorem claim_C2_next_random_spec (s : Nat) :
    (SimpleRNG.next ⟨s⟩).1 = (1664525 * s + 1013904223) % 4294967296 ∧
    (SimpleRNG.next ⟨s⟩).2.state = (1664525 * s + 1013904223) % 4294967296 ∧
    (SimpleRNG.random ⟨s⟩).1 = ((SimpleRNG.next ⟨s⟩).1 : ℚ) / 4294967296 ∧
    0 ≤ (SimpleRNG.random ⟨s⟩).1 ∧ (SimpleRNG.random ⟨s⟩).1 < 1 := by
  refine ⟨rfl, rfl, rfl, ?_, ?_⟩
  · exact div_nonneg (by positivity) (by norm_num)
  · rw [SimpleRNG.random, SimpleRNG.next]
    rw [div_lt_one (by norm_num)]
    have h : (1664525 * s + 1013904223) % 4294967296 < 4294967296 :=
      Nat.mod_lt _ (by norm_num)
    exact_mod_cast h

/-- Claim C3: initialization creates exactly `n` rectangles, in order, the
`i`-th (0-based) having id `i + 1` and fields drawn from the single
`SimpleRNG(seed)` stream in the per-rectangle order x, y, width, height,
vx, vy, with the stated affine transformations of `random()`. -/
theorem claim_C3_initialization (W H : Int) (n : Nat) (seed : Int) :
    (Simulation.mkSim W H n seed).rectangles.length = n ∧
    (Simulation.mkSim W H n seed).rectangles
      = (List.range n).map (fun i =>
          Rectangle.mk (i + 1)
            ((SimpleRNG.mkSeeded seed).drawAt (6 * i) * W)
            ((SimpleRNG.mkSeeded seed).drawAt (6 * i + 1) * H)
            (20 + (SimpleRNG.mkSeeded seed).drawAt (6 * i + 2) * 60)
            (20 + (SimpleRNG.mkSeeded seed).drawAt (6 * i + 3) * 60)
            (-5 + (SimpleRNG.mkSeeded seed).drawAt (6 * i + 4) * 10)
            (-5 + (SimpleRNG.mkSeeded seed).drawAt (6 * i + 5) * 10)) := by
  have hmain : (Simulation.mkSim W H n seed).rectangles
      = (List.range n).map (fun i =>
          Rectangle.mk (i + 1)
            ((SimpleRNG.mkSeeded seed).drawAt (6 * i) * W)
            ((SimpleRNG.mkSeeded seed).drawAt (6 * i + 1) * H)
            (20 + (SimpleRNG.mkSeeded seed).drawAt (6 * i + 2) * 60)
            (20 + (SimpleRNG.mkSeeded seed).drawAt (6 * i + 3) * 60)
            (-5 + (SimpleRNG.mkSeeded seed).drawAt (6 * i + 4) * 10)
            (-5 + (SimpleRNG.mkSeeded seed).drawAt (6 * i + 5) * 10)) := by
    show mkRectsFrom (W : ℚ) (H : ℚ) 0 n (SimpleRNG.mkSeeded seed) = _
    rw [mkRectsFrom_eq]
    refine List.map_congr_left fun j _ => ?_
    rw [rectSpec]
    simp only [SimpleRNG.drawAt_iter, Nat.zero_add, Nat.add_zero]
  exact ⟨by rw [hmain]; simp, hmain⟩

/-- Claim C5: the RNG is deterministic — two instances constructed from the
same seed produce identical output sequences under repeated `next()` calls —
and for seed 42 the first `next()` value equals the recurrence applied to
42. -/
theorem claim_C5_rng_determinism (seed : Int) (n : Nat) (r₁ r₂ : SimpleRNG)
    (h₁ : r₁ = SimpleRNG.mkSeeded seed) (h₂ : r₂ = SimpleRNG.mkSeeded seed) :
    r₁.outputs n = r₂.outputs n ∧
    (SimpleRNG.mkSeeded 42).next.1 = (1664525 * 42 + 1013904223) % 4294967296 := by
  subst h₁; subst h₂
  exact ⟨rfl, by decide⟩

/-- Witness for C5: two instances seeded with 7 agree on their first three
outputs. -/
theorem claim_C5_witness :
    (SimpleRNG.mkSeeded 7).outputs 3 = (SimpleRNG.mkSeeded 7).outputs 3 ∧
    (SimpleRNG.mkSeeded 42).next.1 = (1664525 * 42 + 1013904223) % 4294967296 :=
  claim_C5_rng_determinism 7 3 (SimpleRNG.mkSeeded 7) (SimpleRNG.mkSeeded 7) rfl rfl

/-- Claim C6: `get_bounding_boxes()` returns, in creation order, the pair
(min corner, max corner) computed from center ± half-extents; in
particular a rectangle with center (100, 100), width 40 and height 20
yields min corner (80, 90) and max corner (120, 110). -/
theorem claim_C6_bounding_boxes (W H : ℚ) (rects : List Rectangle) :
    (Simulation.mk W H rects).get_bounding_boxes
      = rects.map (fun r =>
          ((r.x - r.width / 2, r.y - r.height / 2),
           (r.x + r.width / 2, r.y + r.height / 2))) ∧
    (Simulation.mk 1920 1080 [Rectangle.mk 7 100 100 40 20 0 0]).get_bounding_boxes
      = [((80, 90), (120, 110))] := by
  refine ⟨rfl, ?_⟩
  norm_num [Simulation.get_bounding_boxes]

theorem update_ids (s : Simulation) :
    s.update.get_ground_truth_ids = s.get_ground_truth_ids := by
  simp only [Simulation.get_ground_truth_ids, Simulation.update, List.map_map]
  exact List.map_congr_left fun r _ => stepRect_id s.width s.height r

/-- Claim C8: after any number of `update()` calls on a simulation
constructed with rectangle count `n`, `get_ground_truth_ids()` returns the
identifiers in creation order, i.e. `[1, 2, ..., n]`. -/
theorem claim_C8_ground_truth_ids (W H : Int) (n : Nat) (seed : Int) (k : Nat) :
    ((Simulation.mkSim W H n seed).updateN k).get_ground_truth_ids
      = (List.range n).map (fun i => i + 1) := by
  induction k with
  | zero =>
    show (Simulation.mkSim W H n seed).get_ground_truth_ids = _
    simp only [Simulation.get_ground_truth_ids, Simulation.mkSim, mkRectsFrom_eq,
      List.map_map]
    exact List.map_congr_left fun j _ => by simp [rectSpec, Function.comp]
  | succ k ih =>
    show ((Simulation.mkSim W H n seed).updateN k).update.get_ground_truth_ids = _
    rw [update_ids, ih]

/-- Claim C9: the constructor reduces the seed modulo `2^32` (Python's
`seed & 0xFFFFFFFF` on arbitrary-precision integers, including negative
seeds), the state stays strictly below `2^32` after construction and after
every `next()` call, and seeds congruent modulo `2^32` give identical
instances and hence identical output sequences. -/
theorem claim_C9_seed_reduction (seed : Int) (k n : Nat) :
    (SimpleRNG.mkSeeded seed).state = (seed % 4294967296).toNat ∧
    ((SimpleRNG.mkSeeded seed).iter k).state < 4294967296 ∧
    SimpleRNG.mkSeeded seed = SimpleRNG.mkSeeded (seed % 4294967296) ∧
    (SimpleRNG.mkSeeded seed).outputs n
      = (SimpleRNG.mkSeeded (seed % 4294967296)).outputs n := by
  have hmk : SimpleRNG.mkSeeded seed = SimpleRNG.mkSeeded (seed % 4294967296) := by
    have h : seed % 4294967296 % 4294967296 = seed % 4294967296 :=
      Int.emod_emod_of_dvd seed dvd_rfl
    simp [SimpleRNG.mkSeeded, h]
  refine ⟨rfl, ?_, hmk, by rw [hmk]⟩
  induction k with
  | zero =>
    simp only [SimpleRNG.iter, SimpleRNG.mkSeeded]
    omega
  | succ k ih =>
    simp only [SimpleRNG.iter, SimpleRNG.next]
    exact Nat.mod_lt _ (by norm_num)

theorem stepRect_vx_no_bounce (W H : ℚ) (r : Rectangle)
    (h : ¬ (r.x + r.vx - r.width / 2 < 0 ∨ r.x + r.vx + r.width / 2 > W)) :
    (stepRect W H r).vx = r.vx := by
  push_neg at h
  simp only [stepRect]
  rw [if_neg (by simpa using h.1), if_neg (by simpa using h.2)]

theorem stepRect_vy_no_bounce (W H : ℚ) (r : Rectangle)
    (h : ¬ (r.y + r.vy - r.height / 2 < 0 ∨ r.y + r.vy + r.height / 2 > H)) :
    (stepRect W H r).vy = r.vy := by
  push_neg at h
  simp only [stepRect]
  rw [if_neg (by simpa using h.1), if_neg (by simpa using h.2)]

theorem getD_map_of_lt (f : Rectangle → Rectangle) (l : List Rectangle) (i : Nat)
    (d : Rectangle) (h : i < l.length) :
    (l.map f).getD i d = f (l.getD i d) := by
  rw [List.getD_eq_getElem _ _ (by simpa using h), List.getD_eq_getElem _ _ h,
    List.getElem_map]

/-- Claim C7: `update()` keeps the rectangle list's length (and order: the
`i`-th entry stays the `i`-th rectangle), leaves each rectangle's id,
width and height unchanged, and changes vx (resp. vy) only when a
horizontal (resp. vertical) wall crossing is detected in that step. -/
theorem claim_C7_update_frame (s : Simulation) (i : Nat) (d : Rectangle)
    (h : i < s.rectangles.length) :
    s.update.rectangles.length = s.rectangles.length ∧
    (s.update.rectangles.getD i d).id = (s.rectangles.getD i d).id ∧
    (s.update.rectangles.getD i d).width = (s.rectangles.getD i d).width ∧
    (s.update.rectangles.getD i d).height = (s.rectangles.getD i d).height ∧
    (¬ ((s.rectangles.getD i d).x + (s.rectangles.getD i d).vx
          - (s.rectangles.getD i d).width / 2 < 0 ∨
        (s.rectangles.getD i d).x + (s.rectangles.getD i d).vx
          + (s.rectangles.getD i d).width / 2 > s.width) →
      (s.update.rectangles.getD i d).vx = (s.rectangles.getD i d).vx) ∧
    (¬ ((s.rectangles.getD i d).y + (s.rectangles.getD i d).vy
          - (s.rectangles.getD i d).height / 2 < 0 ∨
        (s.rectangles.getD i d).y + (s.rectangles.getD i d).vy
          + (s.rectangles.getD i d).height / 2 > s.height) →
      (s.update.rectangles.getD i d).vy = (s.rectangles.getD i d).vy) := by
  have hget : s.update.rectangles.getD i d
      = stepRect s.width s.height (s.rectangles.getD i d) := by
    simp only [Simulation.update]
    exact getD_map_of_lt _ _ _ _ h
  rw [hget]
  refine ⟨?_, stepRect_id _ _ _, stepRect_width _ _ _, stepRect_height _ _ _,
    fun hnb => stepRect_vx_no_bounce _ _ _ hnb,
    fun hnb => stepRect_vy_no_bounce _ _ _ hnb⟩
  simp only [Simulation.update]
  exact List.length_map _ _

/-- Witness for C7: a concrete one-rectangle simulation whose rectangle
does not touch a wall in this step, at index 0. -/
theorem claim_C7_witness :
    (Simulation.mk 100 100 [Rectangle.mk 1 50 50 20 20 1 1]).update.rectangles.length
      = (Simulation.mk 100 100 [Rectangle.mk 1 50 50 20 20 1 1]).rectangles.length ∧
    ((Simulation.mk 100 100 [Rectangle.mk 1 50 50 20 20 1 1]).update.rectangles.getD 0
        (Rectangle.mk 0 0 0 0 0 0 0)).id = (1 : Nat) ∧
    ((Simulation.mk 100 100 [Rectangle.mk 1 50 50 20 20 1 1]).update.rectangles.getD 0
        (Rectangle.mk 0 0 0 0 0 0 0)).width = (20 : ℚ) ∧
    ((Simulation.mk 100 100 [Rectangle.mk 1 50 50 20 20 1 1]).update.rectangles.getD 0
        (Rectangle.mk 0 0 0 0 0 0 0)).height = (20 : ℚ) ∧
    (¬ ((50 : ℚ) + 1 - 20 / 2 < 0 ∨ (50 : ℚ) + 1 + 20 / 2 > 100) →
      ((Simulation.mk 100 100 [Rectangle.mk 1 50 50 20 20 1 1]).update.rectangles.getD 0
          (Rectangle.mk 0 0 0 0 0 0 0)).vx = (1 : ℚ)) ∧
    (¬ ((50 : ℚ) + 1 - 20 / 2 < 0 ∨ (50 : ℚ) + 1 + 20 / 2 > 100) →
      ((Simulation.mk 100 100 [Rectangle.mk 1 50 50 20 20 1 1]).update.rectangles.getD 0
          (Rectangle.mk 0 0 0 0 0 0 0)).vy = (1 : ℚ)) :=
  claim_C7_update_frame (Simulation.mk 100 100 [Rectangle.mk 1 50 50 20 20 1 1]) 0
    (Rectangle.mk 0 0 0 0 0 0 0) (by decide)

end NorfairBench
